import Mathlib

/-! # Container decoding of `llm/ggml.go`

A shallow embedding of the model-file container decoders of `llm/ggml.go`
and the properties of their specification.

Modelling conventions.

* A `uint32` is a natural number; every value read from a stream is below
  `2 ^ 32` by construction, since it is assembled from four bytes.
* An `io.Reader` is a finite byte stream, represented by the list of bytes
  that have not been read yet.  Reading consumes bytes from the front of this
  list; a stream that ends early is a short read, the only read failure such
  a stream can produce.
* A Go `error` is represented by its message; `nil` is `none`.  The values of
  `errors.New` carry nothing but their message and the file declares no
  sentinel error, so two errors are told apart by their messages only.
* A returned `model` is `none` for a nil interface value and `some` for a
  pointer to a `llamaModel`.
* A method with a pointer receiver returns the receiver after the call next
  to its Go results.
-/

namespace llm

/-! ## Streams and `encoding/binary` -/

/-- One byte of a stream. -/
abbrev Byte := Fin 256

/-- The reader over a finite byte stream: the bytes that are still unread. -/
abbrev Reader := List Byte

/-- Go error values, by message; `none` is the nil error. -/
abbrev error := Option String

/-- The message of `io.EOF`. -/
def EOF : String := "EOF"

/-- The message of `io.ErrUnexpectedEOF`. -/
def ErrUnexpectedEOF : String := "unexpected EOF"

/-- Number of bytes a call consumed, from the reader before and after it. -/
def consumed (before after : Reader) : Nat := before.length - after.length

/-- The function `io.ReadFull(r, buf)` for a buffer of `n` bytes.  It returns the
filled buffer (only when all `n` bytes were read), the reader after the call
and the error.  A stream that ends early is drained: the error is `io.EOF`
when no byte was read and `io.ErrUnexpectedEOF` after a partial read. -/
def ReadFull (r : Reader) (n : Nat) : Option (List Byte) × Reader × error :=
  if n ≤ r.length then (some (r.take n), r.drop n, none)
  else if r.length = 0 then (none, [], some EOF)
  else (none, [], some ErrUnexpectedEOF)

/-- The function `binary.LittleEndian.Uint32`:
`b[0] | b[1]<<8 | b[2]<<16 | b[3]<<24` on a four-byte buffer. -/
def LittleEndian.Uint32 : List Byte → Nat
  | [b0, b1, b2, b3] => b0.val ||| (b1.val <<< 8) ||| (b2.val <<< 16) ||| (b3.val <<< 24)
  | _ => 0

/-- Little-endian value of a buffer of any width, least significant byte
first: what `binary.LittleEndian` computes for an unsigned field of that
width. -/
def leNat : List Byte → Nat
  | [] => 0
  | b :: bs => b.val + 256 * leNat bs

/-- The call `binary.Read(r, binary.LittleEndian, &v)` for a `uint32` variable
currently holding `cur`: the variable after the call, the reader after the
call and the returned error.  On a short read the variable is left as it
was. -/
def binaryReadUint32 (r : Reader) (cur : Nat) : Nat × Reader × error :=
  match ReadFull r 4 with
  | (some bs, r1, _) => (LittleEndian.Uint32 bs, r1, none)
  | (none, r1, e) => (cur, r1, e)

/-! ## Size tiers -/

/-- The type `ModelType`, a `uint32`. -/
abbrev ModelType := Nat

def ModelType3B : ModelType := 26
def ModelType7B : ModelType := 32
def ModelType13B : ModelType := 40
def ModelType34B : ModelType := 48
def ModelType30B : ModelType := 60
def ModelType65B : ModelType := 80

/-- The method `ModelType.String`: the `switch` over the six tier constants. -/
def ModelType.String (mt : ModelType) : String :=
  if mt = ModelType3B then "3B"
  else if mt = ModelType7B then "7B"
  else if mt = ModelType13B then "13B"
  else if mt = ModelType34B then "34B"
  else if mt = ModelType30B then "30B"
  else if mt = ModelType65B then "65B"
  else "Unknown"

/-! ## Hyperparameters

The declaration of the hyperparameter struct of `llamaModel` is not part of
`ggml.go`.  Its layout is a parameter of the development: the byte widths of
its fixed-size unsigned integer fields, in declaration order. -/

/-- The struct `llamaModel`: its hyperparameters, one value per field. -/
structure llamaModel where
  hyperparameters : List Nat
deriving DecidableEq, Repr

/-- The zero value of a hyperparameter struct with the given field widths. -/
def zeroHyperparameters (layout : List Nat) : List Nat := layout.map (fun _ => 0)

/-- Field-by-field decoding of a buffer: each field takes the next bytes of
its width, as the decoder of `encoding/binary` walks a struct. -/
def decodeFields : List Nat → List Byte → List Nat
  | [], _ => []
  | w :: ws, buf => leNat (buf.take w) :: decodeFields ws (buf.drop w)

/-- The call `binary.Read(r, binary.LittleEndian, &s)` for a struct with the
given field widths currently holding `cur`.  The whole struct is read with
one `io.ReadFull`; on a short read the struct is left as it was. -/
def binaryReadStruct (layout : List Nat) (r : Reader) (cur : List Nat) :
    List Nat × Reader × error :=
  match ReadFull r layout.sum with
  | (some bs, r1, _) => (decodeFields layout bs, r1, none)
  | (none, r1, e) => (cur, r1, e)

/-! ## Containers -/

/-- Outcome of a `Decode` call on a container of type `C`. -/
structure DecodeResult (C : Type) where
  /-- the receiver after the call -/
  c : C
  /-- the reader after the call -/
  r : Reader
  /-- the returned model, `none` for nil -/
  m : Option llamaModel
  /-- the returned error, `none` for nil -/
  err : error

/-- The struct `containerGGML`, without fields. -/
structure containerGGML where
deriving DecidableEq, Repr

/-- The struct `containerGGMF`. -/
structure containerGGMF where
  version : Nat
deriving DecidableEq, Repr

/-- The struct `containerGGJT`. -/
structure containerGGJT where
  version : Nat
deriving DecidableEq, Repr

/-- The struct `containerLORA`. -/
structure containerLORA where
  version : Nat
deriving DecidableEq, Repr

def containerGGML.Name (_c : containerGGML) : String := "ggml"

def containerGGMF.Name (_c : containerGGMF) : String := "ggmf"

def containerGGJT.Name (_c : containerGGJT) : String := "ggjt"

def containerLORA.Name (_c : containerLORA) : String := "ggla"

/-- The method `containerGGML.Decode`: `return nil, nil`. -/
def containerGGML.Decode (c : containerGGML) (r : Reader) : DecodeResult containerGGML :=
  { c := c, r := r, m := none, err := none }

/-- The method `containerGGMF.Decode`.  The error of `binary.Read` is dropped;
the local `version` starts at zero. -/
def containerGGMF.Decode (c : containerGGMF) (r : Reader) : DecodeResult containerGGMF :=
  match binaryReadUint32 r 0 with
  | (version, r1, _) =>
    if version = 1 then
      { c := { version := version }, r := r1, m := none, err := none }
    else
      { c := c, r := r1, m := none, err := some "invalid version" }

/-- The method `containerGGJT.Decode`.  Both `binary.Read` errors are dropped;
the local `version` and the local `llama` start at their zero values. -/
def containerGGJT.Decode (layout : List Nat) (c : containerGGJT) (r : Reader) :
    DecodeResult containerGGJT :=
  match binaryReadUint32 r 0 with
  | (version, r1, _) =>
    if version = 1 ∨ version = 2 ∨ version = 3 then
      match binaryReadStruct layout r1 (zeroHyperparameters layout) with
      | (hp, r2, _) =>
        { c := { version := version }, r := r2,
          m := some { hyperparameters := hp }, err := none }
    else
      { c := c, r := r1, m := none, err := some "invalid version" }

/-- The method `containerLORA.Decode`.  The error of `binary.Read` is dropped;
the local `version` starts at zero. -/
def containerLORA.Decode (c : containerLORA) (r : Reader) : DecodeResult containerLORA :=
  match binaryReadUint32 r 0 with
  | (version, r1, _) =>
    if version = 1 then
      { c := { version := version }, r := r1, m := none, err := none }
    else
      { c := c, r := r1, m := none, err := some "invalid version" }

/-! ## Runner selection

The function `chooseRunner` and the struct `ModelRunner` are declared outside
`ggml.go`.  `chooseRunner` is a parameter of the development: a probe whose
answer may depend on how many times it has been asked before.  The package
variables `ggmlInit` and `ggmlRunnerPath` are explicit state, next to a
counter of the calls the probe has received. -/

/-- The function `path.Join` on elements that are non-empty and already clean:
the elements separated by slashes. -/
def pathJoin (elem : List String) : String := "/".intercalate elem

def ggmlGPU : String := pathJoin ["llama.cpp", "ggml", "build", "gpu", "bin"]

def ggmlCPU : String := pathJoin ["llama.cpp", "ggml", "build", "cpu", "bin"]

/-- Modelled from the spec: the struct `ModelRunner` is declared outside
`ggml.go`; only `Path`, the field this file sets, is kept. -/
structure ModelRunner where
  Path : String
deriving DecidableEq, Repr

/-- The package-level state of the runner selection. -/
structure RunnerState where
  /-- whether the `sync.Once` value `ggmlInit` has run its function -/
  ggmlInit : Bool
  /-- the package variable `ggmlRunnerPath` -/
  ggmlRunnerPath : String
  /-- how many calls `chooseRunner` has received so far -/
  probeCalls : Nat
deriving DecidableEq, Repr

/-- The state at process start: nothing has run, the path is the empty
string. -/
def RunnerState.start : RunnerState :=
  { ggmlInit := false, ggmlRunnerPath := "", probeCalls := 0 }

/-- The function `initGGML`: `ggmlInit.Do` runs the assignment
`ggmlRunnerPath = chooseRunner(ggmlGPU, ggmlCPU)` unless it has run before.
The probe is asked with the number of calls it has already received. -/
def initGGML (chooseRunner : Nat → String → String → String) (s : RunnerState) :
    RunnerState :=
  if s.ggmlInit then s
  else
    { ggmlInit := true,
      ggmlRunnerPath := chooseRunner s.probeCalls ggmlGPU ggmlCPU,
      probeCalls := s.probeCalls + 1 }

/-- The function `ggmlRunner`: `initGGML()` followed by
`return ModelRunner{Path: ggmlRunnerPath}`. -/
def ggmlRunner (chooseRunner : Nat → String → String → String) (s : RunnerState) :
    ModelRunner × RunnerState :=
  ({ Path := (initGGML chooseRunner s).ggmlRunnerPath }, initGGML chooseRunner s)

/-- A sequence of `n` calls of `ggmlRunner`, one after the other: the values
returned, in call order, and the state after the last call. -/
def ggmlRunnerCalls (chooseRunner : Nat → String → String → String) :
    Nat → RunnerState → List ModelRunner × RunnerState
  | 0, s => ([], s)
  | n + 1, s =>
    ((ggmlRunner chooseRunner s).1
        :: (ggmlRunnerCalls chooseRunner n (ggmlRunner chooseRunner s).2).1,
      (ggmlRunnerCalls chooseRunner n (ggmlRunner chooseRunner s).2).2)

/-! ## Basic facts about reading -/

theorem ReadFull_of_le (r : Reader) (n : Nat) (h : n ≤ r.length) :
    ReadFull r n = (some (r.take n), r.drop n, none) := by
  simp [ReadFull, h]

theorem ReadFull_of_lt (r : Reader) (n : Nat) (h : r.length < n) :
    ReadFull r n
      = (none, [], some (if r.length = 0 then EOF else ErrUnexpectedEOF)) := by
  have h1 : ¬ n ≤ r.length := by omega
  unfold ReadFull
  rw [if_neg h1]
  split <;> rfl

theorem binaryReadUint32_of_le (r : Reader) (cur : Nat) (h : 4 ≤ r.length) :
    binaryReadUint32 r cur = (LittleEndian.Uint32 (r.take 4), r.drop 4, none) := by
  simp [binaryReadUint32, ReadFull_of_le r 4 h]

theorem binaryReadUint32_of_lt (r : Reader) (cur : Nat) (h : r.length < 4) :
    binaryReadUint32 r cur
      = (cur, [], some (if r.length = 0 then EOF else ErrUnexpectedEOF)) := by
  simp [binaryReadUint32, ReadFull_of_lt r 4 h]

theorem binaryReadStruct_of_le (layout : List Nat) (r : Reader) (cur : List Nat)
    (h : layout.sum ≤ r.length) :
    binaryReadStruct layout r cur
      = (decodeFields layout (r.take layout.sum), r.drop layout.sum, none) := by
  simp [binaryReadStruct, ReadFull_of_le r layout.sum h]

theorem binaryReadStruct_of_lt (layout : List Nat) (r : Reader) (cur : List Nat)
    (h : r.length < layout.sum) :
    binaryReadStruct layout r cur
      = (cur, [], some (if r.length = 0 then EOF else ErrUnexpectedEOF)) := by
  simp [binaryReadStruct, ReadFull_of_lt r layout.sum h]

/-! ## Little-endian values -/

theorem lor_shiftLeft_eq_add (i a b : Nat) (hb : b < 2 ^ i) :
    b ||| (a <<< i) = b + 2 ^ i * a := by
  rw [Nat.lor_comm, Nat.shiftLeft_eq, Nat.mul_comm a, ← Nat.mul_add_lt_is_or hb a,
    Nat.add_comm]

theorem LittleEndian.Uint32_eq (b0 b1 b2 b3 : Byte) :
    LittleEndian.Uint32 [b0, b1, b2, b3]
      = b0.val + 256 * b1.val + 65536 * b2.val + 16777216 * b3.val := by
  have h0 := b0.isLt
  have h1 := b1.isLt
  have h2 := b2.isLt
  simp only [LittleEndian.Uint32]
  rw [lor_shiftLeft_eq_add 8 _ _ (by omega), lor_shiftLeft_eq_add 16 _ _ (by omega),
    lor_shiftLeft_eq_add 24 _ _ (by omega)]
  norm_num

theorem LittleEndian.Uint32_eq_leNat (b0 b1 b2 b3 : Byte) :
    LittleEndian.Uint32 [b0, b1, b2, b3] = leNat [b0, b1, b2, b3] := by
  rw [LittleEndian.Uint32_eq]
  simp only [leNat]
  omega

theorem binaryReadUint32_cons (b0 b1 b2 b3 : Byte) (rest : Reader) (cur : Nat) :
    binaryReadUint32 (b0 :: b1 :: b2 :: b3 :: rest) cur
      = (b0.val + 256 * b1.val + 65536 * b2.val + 16777216 * b3.val, rest, none) := by
  rw [binaryReadUint32_of_le _ _ (by simp)]
  simp [LittleEndian.Uint32_eq]

/-! ## The decoders on a stream with a complete version field -/

theorem ggmf_Decode_cons (c : containerGGMF) (b0 b1 b2 b3 : Byte) (rest : Reader) :
    c.Decode (b0 :: b1 :: b2 :: b3 :: rest)
      = if b0.val + 256 * b1.val + 65536 * b2.val + 16777216 * b3.val = 1 then
          { c := { version := b0.val + 256 * b1.val + 65536 * b2.val + 16777216 * b3.val },
            r := rest, m := none, err := none }
        else { c := c, r := rest, m := none, err := some "invalid version" } := by
  unfold containerGGMF.Decode
  rw [binaryReadUint32_cons]

theorem lora_Decode_cons (c : containerLORA) (b0 b1 b2 b3 : Byte) (rest : Reader) :
    c.Decode (b0 :: b1 :: b2 :: b3 :: rest)
      = if b0.val + 256 * b1.val + 65536 * b2.val + 16777216 * b3.val = 1 then
          { c := { version := b0.val + 256 * b1.val + 65536 * b2.val + 16777216 * b3.val },
            r := rest, m := none, err := none }
        else { c := c, r := rest, m := none, err := some "invalid version" } := by
  unfold containerLORA.Decode
  rw [binaryReadUint32_cons]

theorem ggjt_Decode_cons (layout : List Nat) (c : containerGGJT)
    (b0 b1 b2 b3 : Byte) (rest : Reader) :
    c.Decode layout (b0 :: b1 :: b2 :: b3 :: rest)
      = if b0.val + 256 * b1.val + 65536 * b2.val + 16777216 * b3.val = 1 ∨
            b0.val + 256 * b1.val + 65536 * b2.val + 16777216 * b3.val = 2 ∨
            b0.val + 256 * b1.val + 65536 * b2.val + 16777216 * b3.val = 3 then
          { c := { version := b0.val + 256 * b1.val + 65536 * b2.val + 16777216 * b3.val },
            r := (binaryReadStruct layout rest (zeroHyperparameters layout)).2.1,
            m := some { hyperparameters :=
              (binaryReadStruct layout rest (zeroHyperparameters layout)).1 },
            err := none }
        else { c := c, r := rest, m := none, err := some "invalid version" } := by
  unfold containerGGJT.Decode
  rw [binaryReadUint32_cons]

theorem ggmf_Decode_short (c : containerGGMF) (r : Reader) (h : r.length < 4) :
    c.Decode r = { c := c, r := [], m := none, err := some "invalid version" } := by
  unfold containerGGMF.Decode
  rw [binaryReadUint32_of_lt r 0 h]
  simp

theorem lora_Decode_short (c : containerLORA) (r : Reader) (h : r.length < 4) :
    c.Decode r = { c := c, r := [], m := none, err := some "invalid version" } := by
  unfold containerLORA.Decode
  rw [binaryReadUint32_of_lt r 0 h]
  simp

theorem ggjt_Decode_short (layout : List Nat) (c : containerGGJT) (r : Reader)
    (h : r.length < 4) :
    c.Decode layout r = { c := c, r := [], m := none, err := some "invalid version" } := by
  unfold containerGGJT.Decode
  rw [binaryReadUint32_of_lt r 0 h]
  simp

/-! ## Field decoding -/

theorem decodeFields_length (layout : List Nat) (buf : List Byte) :
    (decodeFields layout buf).length = layout.length := by
  induction layout generalizing buf with
  | nil => rfl
  | cons w ws ih => simp [decodeFields, ih]

theorem decodeFields_take_sum (layout : List Nat) (buf : List Byte) :
    decodeFields layout (buf.take layout.sum) = decodeFields layout buf := by
  induction layout generalizing buf with
  | nil => rfl
  | cons w ws ih =>
    simp only [decodeFields, List.sum_cons, List.take_take, List.drop_take]
    rw [Nat.min_eq_left (Nat.le_add_right w ws.sum), Nat.add_sub_cancel_left, ih]

theorem decodeFields_getElem? (layout : List Nat) (buf : List Byte) (i w : Nat)
    (h : layout[i]? = some w) :
    (decodeFields layout buf)[i]?
      = some (leNat (List.take w (List.drop (layout.take i).sum buf))) := by
  induction layout generalizing buf i with
  | nil => simp at h
  | cons w0 ws ih =>
    cases i with
    | zero =>
      simp only [List.getElem?_cons_zero, Option.some.injEq] at h
      subst h
      simp [decodeFields]
    | succ j =>
      simp only [List.getElem?_cons_succ] at h
      simp only [decodeFields, List.getElem?_cons_succ, List.take_succ_cons, List.sum_cons]
      rw [ih (buf.drop w0) j h, List.drop_drop]

theorem zeroHyperparameters_getElem? (layout : List Nat) (i w : Nat)
    (h : layout[i]? = some w) : (zeroHyperparameters layout)[i]? = some 0 := by
  rw [zeroHyperparameters, List.getElem?_map, h]
  rfl

/-! ## Little-endian values as explicit sums -/

theorem leNat_eq_sum (bs : List Byte) :
    leNat bs = ∑ j ∈ Finset.range bs.length, (bs.getD j 0).val * 256 ^ j := by
  induction bs with
  | nil => simp [leNat]
  | cons b bs ih =>
    rw [leNat, List.length_cons, Finset.sum_range_succ', ih, Finset.mul_sum]
    simp only [List.getD_cons_succ, List.getD_cons_zero, pow_zero, Nat.mul_one]
    rw [Nat.add_comm]
    congr 1
    refine Finset.sum_congr rfl ?_
    intro j _
    rw [pow_succ]
    ring

theorem getD_take_drop (rest : List Byte) (k w j : Nat) (hj : j < w) :
    (List.take w (List.drop k rest)).getD j 0 = rest.getD (k + j) 0 := by
  simp [List.getD_eq_getElem?_getD, List.getElem?_take, hj, List.getElem?_drop]

theorem leNat_take_drop (rest : List Byte) (k w : Nat) (h : k + w ≤ rest.length) :
    leNat (List.take w (List.drop k rest))
      = ∑ j ∈ Finset.range w, (rest.getD (k + j) 0).val * 256 ^ j := by
  have hlen : (List.take w (List.drop k rest)).length = w := by
    rw [List.length_take, List.length_drop]
    omega
  rw [leNat_eq_sum, hlen]
  refine Finset.sum_congr rfl ?_
  intro j hj
  rw [getD_take_drop rest k w j (Finset.mem_range.mp hj)]

theorem take_sum_add_le (layout : List Nat) (i w : Nat) (h : layout[i]? = some w) :
    (layout.take i).sum + w ≤ layout.sum := by
  induction layout generalizing i with
  | nil => simp at h
  | cons w0 ws ih =>
    cases i with
    | zero =>
      simp only [List.getElem?_cons_zero, Option.some.injEq] at h
      subst h
      simp
    | succ j =>
      simp only [List.getElem?_cons_succ] at h
      have := ih j h
      simp only [List.take_succ_cons, List.sum_cons]
      omega

/-! ## Size-tier rendering -/

/-- C1: `ModelType.String` is a total function that agrees with the reference
table 26 ↦ "3B", 32 ↦ "7B", 40 ↦ "13B", 48 ↦ "34B", 60 ↦ "30B", 80 ↦ "65B",
sends every other value to "Unknown", and returns "Unknown" exactly for the
values outside the table. -/
theorem modelType_string_table (mt : ModelType) :
    ModelType.String 26 = "3B" ∧ ModelType.String 32 = "7B" ∧
    ModelType.String 40 = "13B" ∧ ModelType.String 48 = "34B" ∧
    ModelType.String 60 = "30B" ∧ ModelType.String 80 = "65B" ∧
    ((mt ≠ 26 ∧ mt ≠ 32 ∧ mt ≠ 40 ∧ mt ≠ 48 ∧ mt ≠ 60 ∧ mt ≠ 80) →
      ModelType.String mt = "Unknown") ∧
    (ModelType.String mt = "Unknown" ↔
      (mt ≠ 26 ∧ mt ≠ 32 ∧ mt ≠ 40 ∧ mt ≠ 48 ∧ mt ≠ 60 ∧ mt ≠ 80)) := by
  have hU : (mt ≠ 26 ∧ mt ≠ 32 ∧ mt ≠ 40 ∧ mt ≠ 48 ∧ mt ≠ 60 ∧ mt ≠ 80) →
      ModelType.String mt = "Unknown" := by
    rintro ⟨h1, h2, h3, h4, h5, h6⟩
    simp [ModelType.String, ModelType3B, ModelType7B, ModelType13B, ModelType34B,
      ModelType30B, ModelType65B, h1, h2, h3, h4, h5, h6]
  refine ⟨by decide, by decide, by decide, by decide, by decide, by decide, hU, ?_, hU⟩
  intro h
  refine ⟨?_, ?_, ?_, ?_, ?_, ?_⟩ <;> rintro rfl <;> revert h <;> decide

/-! ## Version validation -/

/-- C2: on a stream of at least four bytes, with `v` the little-endian value
of the first four, `containerGGMF.Decode` fails iff `v ≠ 1`,
`containerGGJT.Decode` fails iff `v` is none of 1, 2, 3, and
`containerLORA.Decode` fails iff `v ≠ 1`.  The bytes 01 00 00 00 are accepted
by all three, the big-endian 00 00 00 01 is rejected by all three, and
version 3 is accepted by GGJT only. -/
theorem decode_fails_iff_version_not_allowed (layout : List Nat) (cf : containerGGMF)
    (cj : containerGGJT) (cl : containerLORA) (b0 b1 b2 b3 : Byte) (rest : Reader) :
    ((cf.Decode (b0 :: b1 :: b2 :: b3 :: rest)).err ≠ none ↔
      b0.val + 256 * b1.val + 65536 * b2.val + 16777216 * b3.val ≠ 1) ∧
    ((cj.Decode layout (b0 :: b1 :: b2 :: b3 :: rest)).err ≠ none ↔
      ¬ (b0.val + 256 * b1.val + 65536 * b2.val + 16777216 * b3.val = 1 ∨
         b0.val + 256 * b1.val + 65536 * b2.val + 16777216 * b3.val = 2 ∨
         b0.val + 256 * b1.val + 65536 * b2.val + 16777216 * b3.val = 3)) ∧
    ((cl.Decode (b0 :: b1 :: b2 :: b3 :: rest)).err ≠ none ↔
      b0.val + 256 * b1.val + 65536 * b2.val + 16777216 * b3.val ≠ 1) ∧
    ((cf.Decode (1 :: 0 :: 0 :: 0 :: rest)).err = none ∧
      (cj.Decode layout (1 :: 0 :: 0 :: 0 :: rest)).err = none ∧
      (cl.Decode (1 :: 0 :: 0 :: 0 :: rest)).err = none) ∧
    ((cf.Decode (0 :: 0 :: 0 :: 1 :: rest)).err ≠ none ∧
      (cj.Decode layout (0 :: 0 :: 0 :: 1 :: rest)).err ≠ none ∧
      (cl.Decode (0 :: 0 :: 0 :: 1 :: rest)).err ≠ none) ∧
    ((cj.Decode layout (3 :: 0 :: 0 :: 0 :: rest)).err = none ∧
      (cf.Decode (3 :: 0 :: 0 :: 0 :: rest)).err ≠ none ∧
      (cl.Decode (3 :: 0 :: 0 :: 0 :: rest)).err ≠ none) := by
  simp only [ggmf_Decode_cons, ggjt_Decode_cons, lora_Decode_cons]
  refine ⟨?_, ?_, ?_, ?_, ?_, ?_⟩
  · split <;> simp_all
  · split <;> simp_all
  · split <;> simp_all
  · simp
  · simp
  · have h3 : ((3 : Byte) : Nat) = 3 := rfl
    simp [h3]

/-- C3: when the first four bytes encode little-endian version 1,
`containerGGMF.Decode` and `containerLORA.Decode` both succeed and return no
model, whatever bytes follow. -/
theorem ggmf_lora_version_one_no_model (cf : containerGGMF) (cl : containerLORA)
    (b0 b1 b2 b3 : Byte) (rest : Reader)
    (hv : b0.val + 256 * b1.val + 65536 * b2.val + 16777216 * b3.val = 1) :
    (cf.Decode (b0 :: b1 :: b2 :: b3 :: rest)).err = none ∧
    (cf.Decode (b0 :: b1 :: b2 :: b3 :: rest)).m = none ∧
    (cl.Decode (b0 :: b1 :: b2 :: b3 :: rest)).err = none ∧
    (cl.Decode (b0 :: b1 :: b2 :: b3 :: rest)).m = none := by
  simp [ggmf_Decode_cons, lora_Decode_cons, hv]

theorem ggmf_lora_version_one_no_model_witness :
    ((1 : Byte).val + 256 * (0 : Byte).val + 65536 * (0 : Byte).val
        + 16777216 * (0 : Byte).val = 1) ∧
    (containerGGMF.Decode { version := 0 } [1, 0, 0, 0, 222, 173]).err = none ∧
    (containerGGMF.Decode { version := 0 } [1, 0, 0, 0, 222, 173]).m = none ∧
    (containerLORA.Decode { version := 0 } [1, 0, 0, 0, 222, 173]).err = none ∧
    (containerLORA.Decode { version := 0 } [1, 0, 0, 0, 222, 173]).m = none :=
  ⟨by decide,
    ggmf_lora_version_one_no_model { version := 0 } { version := 0 } 1 0 0 0 [222, 173]
      (by decide)⟩

/-! ## Hyperparameter decoding -/

/-- C4: when the first four bytes encode a little-endian version among 1, 2, 3
and a complete hyperparameter block follows, `containerGGJT.Decode` succeeds
and returns a model; its hyperparameters have one value per field.  The field
at index `i`, of width `w`, starts at offset `k`, the sum of the widths before
it, counted from the byte right after the version field, and its value is
byte `k` plus 256 times byte `k + 1` plus 256 squared times byte `k + 2` and
so on over its `w` bytes.  For a four-byte field this is
`rest[k] + 256 * rest[k+1] + 65536 * rest[k+2] + 16777216 * rest[k+3]`. -/
theorem ggjt_decodes_hyperparameters (layout : List Nat) (c : containerGGJT)
    (b0 b1 b2 b3 : Byte) (rest : Reader)
    (hv : b0.val + 256 * b1.val + 65536 * b2.val + 16777216 * b3.val = 1 ∨
          b0.val + 256 * b1.val + 65536 * b2.val + 16777216 * b3.val = 2 ∨
          b0.val + 256 * b1.val + 65536 * b2.val + 16777216 * b3.val = 3)
    (hblock : layout.sum ≤ rest.length) :
    (c.Decode layout (b0 :: b1 :: b2 :: b3 :: rest)).err = none ∧
    ∃ llama : llamaModel,
      (c.Decode layout (b0 :: b1 :: b2 :: b3 :: rest)).m = some llama ∧
      llama.hyperparameters.length = layout.length ∧
      (∀ i w : Nat, layout[i]? = some w →
        llama.hyperparameters[i]?
          = some (∑ j ∈ Finset.range w,
              (rest.getD ((layout.take i).sum + j) 0).val * 256 ^ j)) ∧
      (∀ i : Nat, layout[i]? = some 4 →
        llama.hyperparameters[i]?
          = some ((rest.getD ((layout.take i).sum) 0).val
              + 256 * (rest.getD ((layout.take i).sum + 1) 0).val
              + 65536 * (rest.getD ((layout.take i).sum + 2) 0).val
              + 16777216 * (rest.getD ((layout.take i).sum + 3) 0).val)) := by
  have hsum : ∀ i w : Nat, layout[i]? = some w →
      (decodeFields layout rest)[i]?
        = some (∑ j ∈ Finset.range w,
            (rest.getD ((layout.take i).sum + j) 0).val * 256 ^ j) := by
    intro i w hw
    rw [decodeFields_getElem? layout rest i w hw,
      leNat_take_drop rest _ w (Nat.le_trans (take_sum_add_le layout i w hw) hblock)]
  rw [ggjt_Decode_cons, if_pos hv, binaryReadStruct_of_le _ _ _ hblock,
    decodeFields_take_sum]
  refine ⟨rfl, _, rfl, decodeFields_length _ _, hsum, ?_⟩
  intro i hi
  show (decodeFields layout rest)[i]? = _
  rw [hsum i 4 hi]
  simp only [Finset.sum_range_succ, Finset.sum_range_zero]
  congr 1
  norm_num
  ring

theorem ggjt_decodes_hyperparameters_witness :
    ((2 : Byte).val + 256 * (0 : Byte).val + 65536 * (0 : Byte).val
        + 16777216 * (0 : Byte).val = 1 ∨
      (2 : Byte).val + 256 * (0 : Byte).val + 65536 * (0 : Byte).val
        + 16777216 * (0 : Byte).val = 2 ∨
      (2 : Byte).val + 256 * (0 : Byte).val + 65536 * (0 : Byte).val
        + 16777216 * (0 : Byte).val = 3) ∧
    List.sum [4, 4] ≤ List.length ([32, 0, 0, 0, 1, 1, 0, 0, 9] : Reader) ∧
    (containerGGJT.Decode [4, 4] { version := 0 }
        (2 :: 0 :: 0 :: 0 :: [32, 0, 0, 0, 1, 1, 0, 0, 9])).m
      = some { hyperparameters := [32, 257] } ∧
    (containerGGJT.Decode [4, 4] { version := 0 }
        (2 :: 0 :: 0 :: 0 :: [32, 0, 0, 0, 1, 1, 0, 0, 9])).r = [9] ∧
    (containerGGJT.Decode [4, 4] { version := 0 }
        (2 :: 0 :: 0 :: 0 :: [32, 0, 0, 0, 1, 1, 0, 0, 9])).err = none ∧
    ∃ llama : llamaModel,
      (containerGGJT.Decode [4, 4] { version := 0 }
        (2 :: 0 :: 0 :: 0 :: [32, 0, 0, 0, 1, 1, 0, 0, 9])).m = some llama ∧
      llama.hyperparameters.length = List.length [4, 4] ∧
      (∀ i w : Nat, ([4, 4] : List Nat)[i]? = some w →
        llama.hyperparameters[i]?
          = some (∑ j ∈ Finset.range w,
              (List.getD ([32, 0, 0, 0, 1, 1, 0, 0, 9] : Reader)
                (List.sum (List.take i [4, 4]) + j) 0).val * 256 ^ j)) ∧
      (∀ i : Nat, ([4, 4] : List Nat)[i]? = some 4 →
        llama.hyperparameters[i]?
          = some ((List.getD ([32, 0, 0, 0, 1, 1, 0, 0, 9] : Reader)
                (List.sum (List.take i [4, 4])) 0).val
              + 256 * (List.getD ([32, 0, 0, 0, 1, 1, 0, 0, 9] : Reader)
                (List.sum (List.take i [4, 4]) + 1) 0).val
              + 65536 * (List.getD ([32, 0, 0, 0, 1, 1, 0, 0, 9] : Reader)
                (List.sum (List.take i [4, 4]) + 2) 0).val
              + 16777216 * (List.getD ([32, 0, 0, 0, 1, 1, 0, 0, 9] : Reader)
                (List.sum (List.take i [4, 4]) + 3) 0).val)) :=
  ⟨by decide, by decide, by decide, by decide,
    ggjt_decodes_hyperparameters [4, 4] { version := 0 } 2 0 0 0
      [32, 0, 0, 0, 1, 1, 0, 0, 9] (by decide) (by decide)⟩

/-- C5: on a stream of at least four bytes whose little-endian version is none
of 1, 2, 3, `containerGGJT.Decode` fails with no model and never reads the
hyperparameter block: exactly the four version bytes are consumed and the
reader is left at the bytes that follow them. -/
theorem ggjt_bad_version_reads_only_version (layout : List Nat) (c : containerGGJT)
    (b0 b1 b2 b3 : Byte) (rest : Reader)
    (hv : ¬ (b0.val + 256 * b1.val + 65536 * b2.val + 16777216 * b3.val = 1 ∨
             b0.val + 256 * b1.val + 65536 * b2.val + 16777216 * b3.val = 2 ∨
             b0.val + 256 * b1.val + 65536 * b2.val + 16777216 * b3.val = 3)) :
    (c.Decode layout (b0 :: b1 :: b2 :: b3 :: rest)).err ≠ none ∧
    (c.Decode layout (b0 :: b1 :: b2 :: b3 :: rest)).m = none ∧
    (c.Decode layout (b0 :: b1 :: b2 :: b3 :: rest)).r = rest ∧
    consumed (b0 :: b1 :: b2 :: b3 :: rest)
      (c.Decode layout (b0 :: b1 :: b2 :: b3 :: rest)).r = 4 := by
  rw [ggjt_Decode_cons, if_neg hv]
  refine ⟨by simp, rfl, rfl, ?_⟩
  simp only [consumed, List.length_cons]
  omega

theorem ggjt_bad_version_reads_only_version_witness :
    (¬ ((99 : Byte).val + 256 * (0 : Byte).val + 65536 * (0 : Byte).val
          + 16777216 * (0 : Byte).val = 1 ∨
        (99 : Byte).val + 256 * (0 : Byte).val + 65536 * (0 : Byte).val
          + 16777216 * (0 : Byte).val = 2 ∨
        (99 : Byte).val + 256 * (0 : Byte).val + 65536 * (0 : Byte).val
          + 16777216 * (0 : Byte).val = 3)) ∧
    (containerGGJT.Decode [4, 4] { version := 0 }
        (99 :: 0 :: 0 :: 0 :: [32, 0, 0, 0, 1, 1, 0, 0])).err ≠ none ∧
    (containerGGJT.Decode [4, 4] { version := 0 }
        (99 :: 0 :: 0 :: 0 :: [32, 0, 0, 0, 1, 1, 0, 0])).m = none ∧
    (containerGGJT.Decode [4, 4] { version := 0 }
        (99 :: 0 :: 0 :: 0 :: [32, 0, 0, 0, 1, 1, 0, 0])).r = [32, 0, 0, 0, 1, 1, 0, 0] ∧
    consumed (99 :: 0 :: 0 :: 0 :: [32, 0, 0, 0, 1, 1, 0, 0])
      (containerGGJT.Decode [4, 4] { version := 0 }
        (99 :: 0 :: 0 :: 0 :: [32, 0, 0, 0, 1, 1, 0, 0])).r = 4 :=
  ⟨by decide,
    ggjt_bad_version_reads_only_version [4, 4] { version := 0 } 99 0 0 0
      [32, 0, 0, 0, 1, 1, 0, 0] (by decide)⟩

/-! ## The plain container -/

/-- C6: on every input stream, the empty one included, `containerGGML.Decode`
returns no model and no error. -/
theorem ggml_decode_nil_nil (c : containerGGML) (r : Reader) :
    (c.Decode r).m = none ∧ (c.Decode r).err = none ∧
    (c.Decode []).m = none ∧ (c.Decode []).err = none :=
  ⟨rfl, rfl, rfl, rfl⟩

/-! ## Stream position -/

/-- C7, as the code has it: on a stream of at least four bytes the GGMF, GGJT
and LORA decoders consume the four version bytes.  GGMF and LORA stop there,
on success and on failure alike.  GGJT stops there on failure; on success it
has also consumed the hyperparameter block, or all remaining bytes when fewer
remain, so it never stands before byte four.  `containerGGML.Decode` reads
nothing and leaves the reader where it was. -/
theorem decode_stream_position (layout : List Nat) (cg : containerGGML)
    (cf : containerGGMF) (cj : containerGGJT) (cl : containerLORA)
    (b0 b1 b2 b3 : Byte) (rest : Reader) :
    (cf.Decode (b0 :: b1 :: b2 :: b3 :: rest)).r = rest ∧
    consumed (b0 :: b1 :: b2 :: b3 :: rest) (cf.Decode (b0 :: b1 :: b2 :: b3 :: rest)).r = 4 ∧
    (cl.Decode (b0 :: b1 :: b2 :: b3 :: rest)).r = rest ∧
    consumed (b0 :: b1 :: b2 :: b3 :: rest) (cl.Decode (b0 :: b1 :: b2 :: b3 :: rest)).r = 4 ∧
    ((cj.Decode layout (b0 :: b1 :: b2 :: b3 :: rest)).err ≠ none →
      (cj.Decode layout (b0 :: b1 :: b2 :: b3 :: rest)).r = rest) ∧
    ((cj.Decode layout (b0 :: b1 :: b2 :: b3 :: rest)).err = none →
      (cj.Decode layout (b0 :: b1 :: b2 :: b3 :: rest)).r = rest.drop layout.sum) ∧
    4 ≤ consumed (b0 :: b1 :: b2 :: b3 :: rest)
      (cj.Decode layout (b0 :: b1 :: b2 :: b3 :: rest)).r ∧
    (cg.Decode (b0 :: b1 :: b2 :: b3 :: rest)).r = b0 :: b1 :: b2 :: b3 :: rest ∧
    consumed (b0 :: b1 :: b2 :: b3 :: rest) (cg.Decode (b0 :: b1 :: b2 :: b3 :: rest)).r = 0 := by
  have hlen : consumed (b0 :: b1 :: b2 :: b3 :: rest) rest = 4 := by
    simp only [consumed, List.length_cons]
    omega
  have hstruct : (binaryReadStruct layout rest (zeroHyperparameters layout)).2.1
      = rest.drop layout.sum := by
    rcases Nat.lt_or_ge rest.length layout.sum with h | h
    · rw [binaryReadStruct_of_lt _ _ _ h, List.drop_eq_nil_of_le (Nat.le_of_lt h)]
    · rw [binaryReadStruct_of_le _ _ _ h]
  have hf : (cf.Decode (b0 :: b1 :: b2 :: b3 :: rest)).r = rest := by
    rw [ggmf_Decode_cons]
    split <;> rfl
  have hl : (cl.Decode (b0 :: b1 :: b2 :: b3 :: rest)).r = rest := by
    rw [lora_Decode_cons]
    split <;> rfl
  refine ⟨hf, by rw [hf, hlen], hl, by rw [hl, hlen], ?_, ?_, ?_, rfl, ?_⟩
  · rw [ggjt_Decode_cons]
    split
    · intro h
      exact absurd rfl h
    · intro _
      rfl
  · rw [ggjt_Decode_cons]
    split
    · intro _
      exact hstruct
    · intro h
      simp at h
  · rw [ggjt_Decode_cons]
    split
    · show 4 ≤ consumed _ (binaryReadStruct layout rest (zeroHyperparameters layout)).2.1
      rw [hstruct]
      simp only [consumed, List.length_cons, List.length_drop]
      omega
    · exact Nat.le_of_eq hlen.symm
  · simp [containerGGML.Decode, consumed]

/-- C7, as stated, fails for the plain container: on the four-byte stream
01 00 00 00 `containerGGML.Decode` succeeds, leaves all four bytes unread and
has not consumed four bytes. -/
theorem ggml_decode_reads_no_version :
    (containerGGML.Decode {} [1, 0, 0, 0]).err = none ∧
    (containerGGML.Decode {} [1, 0, 0, 0]).r = [1, 0, 0, 0] ∧
    consumed [1, 0, 0, 0] (containerGGML.Decode {} [1, 0, 0, 0]).r ≠ 4 := by
  decide

/-! ## Short reads -/

/-- C8, as the code has it: when the stream holds fewer than four bytes the
read of the version field fails, its error is dropped, and each of the GGMF,
GGJT and LORA decoders fails with no model and the error "invalid version":
the very error each returns for an unsupported version. -/
theorem short_version_read_invalid_version (layout : List Nat) (cf : containerGGMF)
    (cj : containerGGJT) (cl : containerLORA) (r : Reader) (h : r.length < 4) :
    (binaryReadUint32 r 0).2.2 ≠ none ∧
    (cf.Decode r).err = some "invalid version" ∧ (cf.Decode r).m = none ∧
    (cj.Decode layout r).err = some "invalid version" ∧ (cj.Decode layout r).m = none ∧
    (cl.Decode r).err = some "invalid version" ∧ (cl.Decode r).m = none ∧
    (cf.Decode r).err = (cf.Decode [99, 0, 0, 0]).err ∧
    (cj.Decode layout r).err = (cj.Decode layout [99, 0, 0, 0]).err ∧
    (cl.Decode r).err = (cl.Decode [99, 0, 0, 0]).err := by
  have h99 : ((99 : Byte) : Nat) = 99 := rfl
  rw [ggmf_Decode_short cf r h, ggjt_Decode_short layout cj r h,
    lora_Decode_short cl r h, binaryReadUint32_of_lt r 0 h,
    ggmf_Decode_cons, ggjt_Decode_cons, lora_Decode_cons]
  simp [h99]

theorem short_version_read_invalid_version_witness :
    List.length ([1, 0] : Reader) < 4 ∧
    (binaryReadUint32 [1, 0] 0).2.2 ≠ none ∧
    (containerGGMF.Decode { version := 0 } [1, 0]).err = some "invalid version" ∧
    (containerGGMF.Decode { version := 0 } [1, 0]).m = none ∧
    (containerGGJT.Decode [4] { version := 0 } [1, 0]).err = some "invalid version" ∧
    (containerGGJT.Decode [4] { version := 0 } [1, 0]).m = none ∧
    (containerLORA.Decode { version := 0 } [1, 0]).err = some "invalid version" ∧
    (containerLORA.Decode { version := 0 } [1, 0]).m = none ∧
    (containerGGMF.Decode { version := 0 } [1, 0]).err
      = (containerGGMF.Decode { version := 0 } [99, 0, 0, 0]).err ∧
    (containerGGJT.Decode [4] { version := 0 } [1, 0]).err
      = (containerGGJT.Decode [4] { version := 0 } [99, 0, 0, 0]).err ∧
    (containerLORA.Decode { version := 0 } [1, 0]).err
      = (containerLORA.Decode { version := 0 } [99, 0, 0, 0]).err :=
  ⟨by decide,
    short_version_read_invalid_version [4] { version := 0 } { version := 0 }
      { version := 0 } [1, 0] (by decide)⟩

/-- C8, as stated, fails: on the empty stream each decoder returns the same
error as on a stream carrying the unsupported version 99, and that error is
not the end-of-stream error of the failed read. -/
theorem short_read_error_not_distinguishable :
    (containerGGMF.Decode { version := 0 } []).err
      = (containerGGMF.Decode { version := 0 } [99, 0, 0, 0]).err ∧
    (containerGGJT.Decode [4] { version := 0 } []).err
      = (containerGGJT.Decode [4] { version := 0 } [99, 0, 0, 0]).err ∧
    (containerLORA.Decode { version := 0 } []).err
      = (containerLORA.Decode { version := 0 } [99, 0, 0, 0]).err ∧
    (containerGGMF.Decode { version := 0 } []).err ≠ some EOF ∧
    (containerGGMF.Decode { version := 0 } []).err ≠ some ErrUnexpectedEOF := by
  decide

/-- C9, as the code has it: when a version among 1, 2, 3 is followed by fewer
bytes than the hyperparameter block needs, the read of the block fails, its
error is dropped, and `containerGGJT.Decode` succeeds: it returns a model
whose hyperparameters are all zero, stores the version and leaves the stream
drained. -/
theorem ggjt_short_block_zero_model (layout : List Nat) (c : containerGGJT)
    (b0 b1 b2 b3 : Byte) (rest : Reader)
    (hv : b0.val + 256 * b1.val + 65536 * b2.val + 16777216 * b3.val = 1 ∨
          b0.val + 256 * b1.val + 65536 * b2.val + 16777216 * b3.val = 2 ∨
          b0.val + 256 * b1.val + 65536 * b2.val + 16777216 * b3.val = 3)
    (hshort : rest.length < layout.sum) :
    (binaryReadStruct layout rest (zeroHyperparameters layout)).2.2 ≠ none ∧
    (c.Decode layout (b0 :: b1 :: b2 :: b3 :: rest)).err = none ∧
    (c.Decode layout (b0 :: b1 :: b2 :: b3 :: rest)).m
      = some { hyperparameters := zeroHyperparameters layout } ∧
    (∀ i w : Nat, layout[i]? = some w → (zeroHyperparameters layout)[i]? = some 0) ∧
    (c.Decode layout (b0 :: b1 :: b2 :: b3 :: rest)).c.version
      = b0.val + 256 * b1.val + 65536 * b2.val + 16777216 * b3.val ∧
    (c.Decode layout (b0 :: b1 :: b2 :: b3 :: rest)).r = [] := by
  rw [ggjt_Decode_cons, if_pos hv, binaryReadStruct_of_lt _ _ _ hshort]
  exact ⟨by simp, rfl, rfl, zeroHyperparameters_getElem? layout, rfl, rfl⟩

theorem ggjt_short_block_zero_model_witness :
    ((3 : Byte).val + 256 * (0 : Byte).val + 65536 * (0 : Byte).val
        + 16777216 * (0 : Byte).val = 1 ∨
      (3 : Byte).val + 256 * (0 : Byte).val + 65536 * (0 : Byte).val
        + 16777216 * (0 : Byte).val = 2 ∨
      (3 : Byte).val + 256 * (0 : Byte).val + 65536 * (0 : Byte).val
        + 16777216 * (0 : Byte).val = 3) ∧
    List.length ([32, 0, 0, 0, 7] : Reader) < List.sum [4, 4] ∧
    (binaryReadStruct [4, 4] [32, 0, 0, 0, 7] (zeroHyperparameters [4, 4])).2.2 ≠ none ∧
    (containerGGJT.Decode [4, 4] { version := 0 }
        (3 :: 0 :: 0 :: 0 :: [32, 0, 0, 0, 7])).err = none ∧
    (containerGGJT.Decode [4, 4] { version := 0 }
        (3 :: 0 :: 0 :: 0 :: [32, 0, 0, 0, 7])).m
      = some { hyperparameters := zeroHyperparameters [4, 4] } ∧
    (∀ i w : Nat, ([4, 4] : List Nat)[i]? = some w →
      (zeroHyperparameters [4, 4])[i]? = some 0) ∧
    (containerGGJT.Decode [4, 4] { version := 0 }
        (3 :: 0 :: 0 :: 0 :: [32, 0, 0, 0, 7])).c.version
      = (3 : Byte).val + 256 * (0 : Byte).val + 65536 * (0 : Byte).val
        + 16777216 * (0 : Byte).val ∧
    (containerGGJT.Decode [4, 4] { version := 0 }
        (3 :: 0 :: 0 :: 0 :: [32, 0, 0, 0, 7])).r = [] :=
  ⟨by decide, by decide,
    ggjt_short_block_zero_model [4, 4] { version := 0 } 3 0 0 0 [32, 0, 0, 0, 7]
      (by decide) (by decide)⟩

/-- C9, as stated, fails: on the stream 01 00 00 00, a valid version with
nothing after it, `containerGGJT.Decode` for a block of two four-byte fields
returns no error and a model with hyperparameters 0, 0. -/
theorem ggjt_short_block_succeeds :
    List.length ([] : Reader) < List.sum [4, 4] ∧
    (containerGGJT.Decode [4, 4] { version := 0 } [1, 0, 0, 0]).err = none ∧
    (containerGGJT.Decode [4, 4] { version := 0 } [1, 0, 0, 0]).m
      = some { hyperparameters := [0, 0] } := by
  decide

/-! ## The unsupported-version error -/

/-- C10, as the code has it: every failing decode of the GGMF, GGJT and LORA
decoders returns the one fixed error "invalid version", which names neither
the container kind nor the rejected version. -/
theorem decode_error_is_invalid_version (layout : List Nat) (cf : containerGGMF)
    (cj : containerGGJT) (cl : containerLORA) (r : Reader) :
    ((cf.Decode r).err ≠ none → (cf.Decode r).err = some "invalid version") ∧
    ((cj.Decode layout r).err ≠ none → (cj.Decode layout r).err = some "invalid version") ∧
    ((cl.Decode r).err ≠ none → (cl.Decode r).err = some "invalid version") := by
  refine ⟨?_, ?_, ?_⟩
  · unfold containerGGMF.Decode
    rcases binaryReadUint32 r 0 with ⟨v, r1, e⟩
    dsimp only
    split <;> simp
  · unfold containerGGJT.Decode
    rcases binaryReadUint32 r 0 with ⟨v, r1, e⟩
    dsimp only
    split <;> simp
  · unfold containerLORA.Decode
    rcases binaryReadUint32 r 0 with ⟨v, r1, e⟩
    dsimp only
    split <;> simp

/-- C10, as stated, fails: GGMF rejecting version 2, GGJT rejecting version 99
and LORA rejecting version 7 all fail, and the three returned errors are
equal although kinds and versions differ. -/
theorem unsupported_version_errors_coincide :
    (containerGGMF.Decode { version := 0 } [2, 0, 0, 0]).err ≠ none ∧
    (containerGGJT.Decode [4, 4] { version := 0 } [99, 0, 0, 0]).err ≠ none ∧
    (containerLORA.Decode { version := 0 } [7, 0, 0, 0]).err ≠ none ∧
    (containerGGMF.Decode { version := 0 } [2, 0, 0, 0]).err
      = (containerGGJT.Decode [4, 4] { version := 0 } [99, 0, 0, 0]).err ∧
    (containerGGJT.Decode [4, 4] { version := 0 } [99, 0, 0, 0]).err
      = (containerLORA.Decode { version := 0 } [7, 0, 0, 0]).err ∧
    (containerGGJT.Decode [4, 4] { version := 0 } [99, 0, 0, 0]).err
      = (containerGGJT.Decode [4, 4] { version := 0 } [4, 0, 0, 0]).err := by
  decide

/-! ## Failure leaves the container alone -/

theorem reader_cases (r : Reader) :
    r.length < 4 ∨ ∃ b0 b1 b2 b3 rest, r = b0 :: b1 :: b2 :: b3 :: rest := by
  rcases r with _ | ⟨b0, _ | ⟨b1, _ | ⟨b2, _ | ⟨b3, rest⟩⟩⟩⟩
  · exact Or.inl (by simp)
  · exact Or.inl (by simp)
  · exact Or.inl (by simp)
  · exact Or.inl (by simp)
  · exact Or.inr ⟨b0, b1, b2, b3, rest, rfl⟩

theorem ggmf_Decode_failure (c : containerGGMF) (r : Reader)
    (h : (c.Decode r).err ≠ none) : (c.Decode r).m = none ∧ (c.Decode r).c = c := by
  revert h
  unfold containerGGMF.Decode
  rcases binaryReadUint32 r 0 with ⟨v, r1, e⟩
  dsimp only
  split <;> simp

theorem lora_Decode_failure (c : containerLORA) (r : Reader)
    (h : (c.Decode r).err ≠ none) : (c.Decode r).m = none ∧ (c.Decode r).c = c := by
  revert h
  unfold containerLORA.Decode
  rcases binaryReadUint32 r 0 with ⟨v, r1, e⟩
  dsimp only
  split <;> simp

theorem ggjt_Decode_failure (layout : List Nat) (c : containerGGJT) (r : Reader)
    (h : (c.Decode layout r).err ≠ none) :
    (c.Decode layout r).m = none ∧ (c.Decode layout r).c = c := by
  revert h
  unfold containerGGJT.Decode
  rcases binaryReadUint32 r 0 with ⟨v, r1, e⟩
  dsimp only
  split <;> simp

/-- C11: `Decode` is atomic on failure.  Whenever the GGMF, GGJT or LORA
decoder returns an error, the returned model is nil and the container is
exactly what it was before the call.  In particular a container that stored
version 3 from an earlier valid GGJT stream, or version 1 from an earlier
valid GGMF or LORA stream, still stores it after a failing call. -/
theorem decode_failure_is_atomic (layout : List Nat) (cf : containerGGMF)
    (cj : containerGGJT) (cl : containerLORA) (r rest : Reader) :
    ((cf.Decode r).err ≠ none → (cf.Decode r).m = none ∧ (cf.Decode r).c = cf) ∧
    ((cj.Decode layout r).err ≠ none →
      (cj.Decode layout r).m = none ∧ (cj.Decode layout r).c = cj) ∧
    ((cl.Decode r).err ≠ none → (cl.Decode r).m = none ∧ (cl.Decode r).c = cl) ∧
    ((cj.Decode layout (3 :: 0 :: 0 :: 0 :: rest)).c.version = 3 ∧
      (((cj.Decode layout (3 :: 0 :: 0 :: 0 :: rest)).c.Decode layout r).err ≠ none →
        ((cj.Decode layout (3 :: 0 :: 0 :: 0 :: rest)).c.Decode layout r).c.version = 3)) ∧
    ((cf.Decode (1 :: 0 :: 0 :: 0 :: rest)).c.version = 1 ∧
      (((cf.Decode (1 :: 0 :: 0 :: 0 :: rest)).c.Decode r).err ≠ none →
        ((cf.Decode (1 :: 0 :: 0 :: 0 :: rest)).c.Decode r).c.version = 1)) ∧
    ((cl.Decode (1 :: 0 :: 0 :: 0 :: rest)).c.version = 1 ∧
      (((cl.Decode (1 :: 0 :: 0 :: 0 :: rest)).c.Decode r).err ≠ none →
        ((cl.Decode (1 :: 0 :: 0 :: 0 :: rest)).c.Decode r).c.version = 1)) := by
  have h3 : ((3 : Byte) : Nat) = 3 := rfl
  have hj : (cj.Decode layout (3 :: 0 :: 0 :: 0 :: rest)).c.version = 3 := by
    rw [ggjt_Decode_cons]
    simp [h3]
  have hf : (cf.Decode (1 :: 0 :: 0 :: 0 :: rest)).c.version = 1 := by
    rw [ggmf_Decode_cons]
    simp
  have hl : (cl.Decode (1 :: 0 :: 0 :: 0 :: rest)).c.version = 1 := by
    rw [lora_Decode_cons]
    simp
  refine ⟨ggmf_Decode_failure cf r, ggjt_Decode_failure layout cj r,
    lora_Decode_failure cl r, ⟨hj, ?_⟩, ⟨hf, ?_⟩, ⟨hl, ?_⟩⟩
  · intro h
    rw [(ggjt_Decode_failure layout _ r h).2, hj]
  · intro h
    rw [(ggmf_Decode_failure _ r h).2, hf]
  · intro h
    rw [(lora_Decode_failure _ r h).2, hl]

/-! ## Container names -/

/-- C12: the container names are the fixed strings "ggml", "ggmf", "ggjt" and
"ggla", whatever version the container stores; the four names are pairwise
distinct; and the name of a container is the same before and after any
`Decode` call. -/
theorem container_names_fixed (layout : List Nat) (cg : containerGGML)
    (cf : containerGGMF) (cj : containerGGJT) (cl : containerLORA) (r : Reader) :
    (cg.Name = "ggml" ∧ cf.Name = "ggmf" ∧ cj.Name = "ggjt" ∧ cl.Name = "ggla") ∧
    (cg.Name ≠ cf.Name ∧ cg.Name ≠ cj.Name ∧ cg.Name ≠ cl.Name ∧
      cf.Name ≠ cj.Name ∧ cf.Name ≠ cl.Name ∧ cj.Name ≠ cl.Name) ∧
    ((cg.Decode r).c.Name = cg.Name ∧ (cf.Decode r).c.Name = cf.Name ∧
      (cj.Decode layout r).c.Name = cj.Name ∧ (cl.Decode r).c.Name = cl.Name) := by
  refine ⟨⟨rfl, rfl, rfl, rfl⟩, ?_, ⟨rfl, rfl, rfl, rfl⟩⟩
  simp only [containerGGML.Name, containerGGMF.Name, containerGGJT.Name, containerLORA.Name]
  decide

/-! ## Runner selection is cached -/

theorem initGGML_of_done (chooseRunner : Nat → String → String → String)
    (s : RunnerState) (h : s.ggmlInit = true) : initGGML chooseRunner s = s := by
  simp [initGGML, h]

theorem ggmlRunnerCalls_of_done (chooseRunner : Nat → String → String → String)
    (n : Nat) (s : RunnerState) (h : s.ggmlInit = true) :
    (ggmlRunnerCalls chooseRunner n s).2 = s ∧
    (ggmlRunnerCalls chooseRunner n s).1.length = n ∧
    ∀ m ∈ (ggmlRunnerCalls chooseRunner n s).1, m.Path = s.ggmlRunnerPath := by
  induction n with
  | zero => simp [ggmlRunnerCalls]
  | succ k ih =>
    obtain ⟨ih1, ih2, ih3⟩ := ih
    simp only [ggmlRunnerCalls, ggmlRunner, initGGML_of_done chooseRunner s h]
    refine ⟨ih1, by simp [ih2], ?_⟩
    intro m hm
    rcases List.mem_cons.mp hm with rfl | hm
    · rfl
    · exact ih3 m hm

/-- C13: with the cache as explicit state and `chooseRunner` as a probe whose
answer may change from one call to the next, a sequence of `ggmlRunner` calls
from process start asks the probe on the first call only: no call has been
made before it, exactly one after the first call and still exactly one after
any number of further calls.  Every call, the first and the later ones,
returns a `ModelRunner` whose `Path` is the first answer of the probe,
unmodified. -/
theorem ggmlRunner_probes_once (chooseRunner : Nat → String → String → String)
    (n : Nat) :
    (ggmlRunnerCalls chooseRunner 0 RunnerState.start).2.probeCalls = 0 ∧
    (ggmlRunner chooseRunner RunnerState.start).2.probeCalls = 1 ∧
    (ggmlRunner chooseRunner RunnerState.start).1.Path = chooseRunner 0 ggmlGPU ggmlCPU ∧
    (ggmlRunnerCalls chooseRunner (n + 1) RunnerState.start).2.probeCalls = 1 ∧
    (ggmlRunnerCalls chooseRunner (n + 1) RunnerState.start).1.length = n + 1 ∧
    ∀ m ∈ (ggmlRunnerCalls chooseRunner (n + 1) RunnerState.start).1,
      m.Path = chooseRunner 0 ggmlGPU ggmlCPU := by
  have hstep : ggmlRunner chooseRunner RunnerState.start
      = ({ Path := chooseRunner 0 ggmlGPU ggmlCPU },
         { ggmlInit := true, ggmlRunnerPath := chooseRunner 0 ggmlGPU ggmlCPU,
           probeCalls := 1 }) := by
    simp [ggmlRunner, initGGML, RunnerState.start]
  obtain ⟨h1, h2, h3⟩ := ggmlRunnerCalls_of_done chooseRunner n
    { ggmlInit := true, ggmlRunnerPath := chooseRunner 0 ggmlGPU ggmlCPU,
      probeCalls := 1 } rfl
  refine ⟨rfl, by rw [hstep], by rw [hstep], ?_, ?_, ?_⟩
  · simp only [ggmlRunnerCalls, hstep, h1]
  · simp only [ggmlRunnerCalls, hstep, List.length_cons, h2]
  · intro m hm
    simp only [ggmlRunnerCalls, hstep] at hm
    rcases List.mem_cons.mp hm with rfl | hm
    · rfl
    · exact h3 m hm

/-! ## The stored version -/

/-- C15: whenever the GGMF, GGJT or LORA decoder succeeds, the stream holds at
least four bytes, the version the container stores after the call is the
little-endian value of the first four, and that value is in the allow-list of
the kind: 1 for GGMF and LORA, one of 1, 2, 3 for GGJT. -/
theorem decode_success_stores_version (layout : List Nat) (cf : containerGGMF)
    (cj : containerGGJT) (cl : containerLORA) (r : Reader) :
    ((cf.Decode r).err = none →
      ∃ b0 b1 b2 b3 rest, r = b0 :: b1 :: b2 :: b3 :: rest ∧
        (cf.Decode r).c.version
          = b0.val + 256 * b1.val + 65536 * b2.val + 16777216 * b3.val ∧
        (cf.Decode r).c.version = LittleEndian.Uint32 (r.take 4) ∧
        (cf.Decode r).c.version = 1) ∧
    ((cj.Decode layout r).err = none →
      ∃ b0 b1 b2 b3 rest, r = b0 :: b1 :: b2 :: b3 :: rest ∧
        (cj.Decode layout r).c.version
          = b0.val + 256 * b1.val + 65536 * b2.val + 16777216 * b3.val ∧
        (cj.Decode layout r).c.version = LittleEndian.Uint32 (r.take 4) ∧
        ((cj.Decode layout r).c.version = 1 ∨ (cj.Decode layout r).c.version = 2 ∨
          (cj.Decode layout r).c.version = 3)) ∧
    ((cl.Decode r).err = none →
      ∃ b0 b1 b2 b3 rest, r = b0 :: b1 :: b2 :: b3 :: rest ∧
        (cl.Decode r).c.version
          = b0.val + 256 * b1.val + 65536 * b2.val + 16777216 * b3.val ∧
        (cl.Decode r).c.version = LittleEndian.Uint32 (r.take 4) ∧
        (cl.Decode r).c.version = 1) := by
  rcases reader_cases r with hshort | ⟨b0, b1, b2, b3, rest, rfl⟩
  · rw [ggmf_Decode_short cf r hshort, ggjt_Decode_short layout cj r hshort,
      lora_Decode_short cl r hshort]
    simp
  · have htake : LittleEndian.Uint32 (List.take 4 (b0 :: b1 :: b2 :: b3 :: rest))
        = b0.val + 256 * b1.val + 65536 * b2.val + 16777216 * b3.val := by
      simp [LittleEndian.Uint32_eq]
    rw [htake, ggmf_Decode_cons, ggjt_Decode_cons, lora_Decode_cons]
    refine ⟨?_, ?_, ?_⟩
    · split
      · next hv => exact fun _ => ⟨b0, b1, b2, b3, rest, rfl, rfl, rfl, hv⟩
      · intro h
        simp at h
    · split
      · next hv => exact fun _ => ⟨b0, b1, b2, b3, rest, rfl, rfl, rfl, hv⟩
      · intro h
        simp at h
    · split
      · next hv => exact fun _ => ⟨b0, b1, b2, b3, rest, rfl, rfl, rfl, hv⟩
      · intro h
        simp at h

/-! ## A failed version read is never a valid header -/

/-- C16: on a stream shorter than four bytes, the empty one included, the
read of the version field fails and leaves the version variable at zero;
zero is accepted by no decoder, also when it is read in full from the bytes
00 00 00 00; and each of the GGMF, GGJT and LORA decoders returns an error
and no model. -/
theorem short_stream_never_valid_header (layout : List Nat) (cf : containerGGMF)
    (cj : containerGGJT) (cl : containerLORA) (r : Reader) (h : r.length < 4) :
    (binaryReadUint32 r 0).2.2 ≠ none ∧ (binaryReadUint32 r 0).1 = 0 ∧
    (∀ rest : Reader, (cf.Decode (0 :: 0 :: 0 :: 0 :: rest)).err ≠ none ∧
      (cj.Decode layout (0 :: 0 :: 0 :: 0 :: rest)).err ≠ none ∧
      (cl.Decode (0 :: 0 :: 0 :: 0 :: rest)).err ≠ none) ∧
    ((cf.Decode r).err ≠ none ∧ (cf.Decode r).m = none) ∧
    ((cj.Decode layout r).err ≠ none ∧ (cj.Decode layout r).m = none) ∧
    ((cl.Decode r).err ≠ none ∧ (cl.Decode r).m = none) ∧
    ((cf.Decode []).err ≠ none ∧ (cj.Decode layout []).err ≠ none ∧
      (cl.Decode []).err ≠ none) := by
  have hnil : List.length ([] : Reader) < 4 := by decide
  rw [ggmf_Decode_short cf r h, ggjt_Decode_short layout cj r h,
    lora_Decode_short cl r h, ggmf_Decode_short cf [] hnil,
    ggjt_Decode_short layout cj [] hnil, lora_Decode_short cl [] hnil,
    binaryReadUint32_of_lt r 0 h]
  refine ⟨by simp, rfl, ?_, by simp, by simp, by simp, by simp⟩
  intro rest
  rw [ggmf_Decode_cons, ggjt_Decode_cons, lora_Decode_cons]
  simp

theorem short_stream_never_valid_header_witness :
    List.length ([1, 0, 0] : Reader) < 4 ∧
    (binaryReadUint32 [1, 0, 0] 0).2.2 ≠ none ∧ (binaryReadUint32 [1, 0, 0] 0).1 = 0 ∧
    (∀ rest : Reader,
      (containerGGMF.Decode { version := 1 } (0 :: 0 :: 0 :: 0 :: rest)).err ≠ none ∧
      (containerGGJT.Decode [4, 4] { version := 3 } (0 :: 0 :: 0 :: 0 :: rest)).err ≠ none ∧
      (containerLORA.Decode { version := 1 } (0 :: 0 :: 0 :: 0 :: rest)).err ≠ none) ∧
    ((containerGGMF.Decode { version := 1 } [1, 0, 0]).err ≠ none ∧
      (containerGGMF.Decode { version := 1 } [1, 0, 0]).m = none) ∧
    ((containerGGJT.Decode [4, 4] { version := 3 } [1, 0, 0]).err ≠ none ∧
      (containerGGJT.Decode [4, 4] { version := 3 } [1, 0, 0]).m = none) ∧
    ((containerLORA.Decode { version := 1 } [1, 0, 0]).err ≠ none ∧
      (containerLORA.Decode { version := 1 } [1, 0, 0]).m = none) ∧
    ((containerGGMF.Decode { version := 1 } []).err ≠ none ∧
      (containerGGJT.Decode [4, 4] { version := 3 } []).err ≠ none ∧
      (containerLORA.Decode { version := 1 } []).err ≠ none) :=
  ⟨by decide,
    short_stream_never_valid_header [4, 4] { version := 1 } { version := 3 }
      { version := 1 } [1, 0, 0] (by decide)⟩

/-! ## GGMF and LORA decode alike -/

/-- C17: `containerGGMF.Decode` and `containerLORA.Decode` agree up to the
kind name.  For every stream and every version stored beforehand, both return
the same model, which is nil, the same error, so they fail on exactly the same
streams, store the same version, leave the reader at the same place and
consume the same number of bytes. -/
theorem ggmf_lora_decode_agree (v : Nat) (r : Reader) :
    (containerGGMF.Decode { version := v } r).m
      = (containerLORA.Decode { version := v } r).m ∧
    (containerGGMF.Decode { version := v } r).m = none ∧
    (containerGGMF.Decode { version := v } r).err
      = (containerLORA.Decode { version := v } r).err ∧
    ((containerGGMF.Decode { version := v } r).err ≠ none ↔
      (containerLORA.Decode { version := v } r).err ≠ none) ∧
    (containerGGMF.Decode { version := v } r).c.version
      = (containerLORA.Decode { version := v } r).c.version ∧
    (containerGGMF.Decode { version := v } r).r
      = (containerLORA.Decode { version := v } r).r ∧
    consumed r (containerGGMF.Decode { version := v } r).r
      = consumed r (containerLORA.Decode { version := v } r).r := by
  unfold containerGGMF.Decode containerLORA.Decode
  rcases binaryReadUint32 r 0 with ⟨w, r1, e⟩
  dsimp only
  split <;> simp

end llm
